import Mathlib

/-!
# afl-showmap: trace map classification, result writing and run outcome

A shallow embedding of `src/afl-showmap.c`.  Bytes (`u8`) are `Fin 256`,
32-bit unsigned counters are natural numbers reduced `% 2 ^ 32` where the C
code can wrap, C strings are Lean strings, and the process-wide variables of
the C file are the fields of `Globals`.  Everything the operating system
answers (results of `fork`, `waitpid`, `read`, `write`, `open`, the bytes the
child left in the shared map, signals that arrived while the parent was
blocked) is an explicit environment record passed to the function.
-/

namespace AflShowmap

/-- A byte, the C type `u8`. -/
abbrev u8 := Fin 256

/-- Constants of `config.h`, which `afl-showmap.c` includes; they are taken
as parameters.  `big_endian` tells how the host lays out a `u32` in memory. -/
structure Config where
  MAP_SIZE : Nat
  EXEC_FAIL_SIG : Nat
  MSAN_ERROR : Nat
  big_endian : Bool
  deriving DecidableEq, Repr

/-- The table `count_class_human[256]`, written with the same designated
ranges as the initializer. -/
def count_class_human : List u8 :=
  [0, 1, 2, 3] ++ List.replicate 4 4 ++ List.replicate 8 5 ++ List.replicate 16 6
    ++ List.replicate 96 7 ++ List.replicate 128 8

/-- The table `count_class_binary[256]`. -/
def count_class_binary : List u8 :=
  [0, 1, 2, 4] ++ List.replicate 4 8 ++ List.replicate 8 16 ++ List.replicate 16 32
    ++ List.replicate 96 64 ++ List.replicate 128 128

/-- Table lookup `map[b]` for a byte index `b`. -/
def lookup (map : List u8) (b : u8) : u8 := map.getD b.val 0

/-- The loop `while (i--) { *mem = f(*mem); mem++; }`: `i` is the remaining
count, the list is the memory from the current position of `mem` on. -/
def classify_loop (f : u8 → u8) : Nat → List u8 → List u8
  | 0, mem => mem
  | _ + 1, [] => []
  | i + 1, b :: mem => f b :: classify_loop f i mem

/-- The function `classify_counts(mem, map)`; `edges_only` and
`raw_instr_output` are the two globals it reads. -/
def classify_counts (cfg : Config) (edges_only raw_instr_output : Bool)
    (mem : List u8) (map : List u8) : List u8 :=
  if edges_only then
    classify_loop (fun b => if b ≠ 0 then 1 else b) cfg.MAP_SIZE mem
  else if !raw_instr_output then
    classify_loop (fun b => lookup map b) cfg.MAP_SIZE mem
  else mem

/-- The host's `*(u32*)mem`: the first four bytes read as one 32-bit word.
A map shorter than four bytes has no such word (the model answers 0). -/
def load_u32 (cfg : Config) (mem : List u8) : Nat :=
  match mem with
  | b0 :: b1 :: b2 :: b3 :: _ =>
    if cfg.big_endian then b0.val * 2 ^ 24 + b1.val * 2 ^ 16 + b2.val * 2 ^ 8 + b3.val
    else b0.val + b1.val * 2 ^ 8 + b2.val * 2 ^ 16 + b3.val * 2 ^ 24
  | _ => 0

/-- The call `memset(mem, 0, n)`. -/
def memset0 (n : Nat) (mem : List u8) : List u8 :=
  List.replicate (min n mem.length) 0 ++ mem.drop n

/-- `WIFSIGNALED(status)` of `<sys/wait.h>` (glibc):
`((signed char) ((status & 0x7f) + 1) >> 1) > 0`. -/
def WIFSIGNALED (status : Nat) : Bool :=
  let t : Int := (status % 128 + 1 : Nat)
  let sc : Int := if 128 ≤ t then t - 256 else t
  decide (0 < sc / 2)

/-- `WIFEXITED(status)`: `(status & 0x7f) == 0`. -/
def WIFEXITED (status : Nat) : Bool := status % 128 == 0

/-- `WEXITSTATUS(status)`: `(status & 0xff00) >> 8`. -/
def WEXITSTATUS (status : Nat) : Nat := status / 256 % 256

/-- Where `write_results_to_file` sends its output. -/
inductive Sink where
  | device (path : String)
  | stdout
  | file (path : String)
  deriving DecidableEq, Repr

/-- What was written to a sink: raw bytes, or the strings of the successive
`fprintf` calls. -/
inductive FileContent where
  | binary (bytes : List u8)
  | text (lines : List String)
  deriving DecidableEq, Repr

/-- The process-wide variables of `afl-showmap.c` used by the modelled
functions, the static local `prev_timed_out` of `run_target_forkserver`, and
three records of what the process did to the outside: the bytes left in the
file behind descriptor 0 (`testcase`), the words written to the fork server
control pipe (`ctl_sent`) and the outputs written (`files`, oldest first). -/
structure Globals where
  trace_bits : List u8
  child_pid : Int
  out_file : String
  in_data : List u8
  in_len : Nat
  exec_tmout : Nat
  total : Nat
  highest : Nat
  total_execs : Nat
  quiet_mode : Bool
  edges_only : Bool
  raw_instr_output : Bool
  cmin_mode : Bool
  binary_mode : Bool
  use_stdin : Bool
  stop_soon : Bool
  child_timed_out : Bool
  child_crashed : Bool
  prev_timed_out : Nat
  testcase : List u8
  ctl_sent : List Nat
  files : List (Sink × FileContent)
  deriving DecidableEq, Repr

/-- The reasons for which the modelled code calls `FATAL`, `PFATAL` or
`RPFATAL`. -/
inductive Fatal where
  | fork_failed
  | waitpid_failed
  | exec_failed
  | fsrv_request
  | fsrv_misbehaving
  | fsrv_comm
  | open_failed
  | fdopen_failed
  | short_write
  | no_instrumentation
  deriving DecidableEq, Repr

/-- How a function stops the process instead of returning. `child` is the
branch of `run_target` taken in the forked child, which becomes the target. -/
inductive Halt where
  | fatal (what : Fatal)
  | exit (code : Nat)
  | child
  deriving DecidableEq, Repr

/-- Result of a modelled function: it returns a value, or it stops the
process; in both cases with the globals as they are at that point. -/
inductive Res (α : Type) where
  | ret (a : α) (g : Globals)
  | halt (h : Halt) (g : Globals)
  deriving DecidableEq, Repr

/-- The globals at the point where the function returned or stopped. -/
def Res.globals {α : Type} : Res α → Globals
  | .ret _ g => g
  | .halt _ g => g

/-- The table passed to `classify_counts` by both run functions:
`binary_mode ? count_class_binary : count_class_human`. -/
def class_table (binary_mode : Bool) : List u8 :=
  if binary_mode then count_class_binary else count_class_human

/-- What the system answers during one `run_target`: the result of `fork`,
whether SIGALRM and a stop signal were delivered while the parent was
blocked in `waitpid`, the result of `waitpid` and the status it stored, and
the bytes the child left in the shared map. `timer_fired` only records the
event: the handler registered for SIGALRM, `handle_timeout`, is not defined
in `afl-showmap.c`, and `child_timed_out` is a `static` of that file, so the
handler cannot assign it; what the timeout does to the child shows in
`status`. -/
structure RunEnv where
  fork_ret : Int
  timer_fired : Bool
  stop_signal : Bool
  waitpid_ret : Int
  status : Nat
  child_trace : List u8
  deriving DecidableEq, Repr

/-- The function `run_target(argv)`, parent side. Messages printed with
`SAYF` are left out. `handle_stop_sig` sets `stop_soon` while the parent
waits; the only assignment to the file-static `child_timed_out` is the
`child_timed_out = 0` made when `exec_tmout` is non-zero. -/
def run_target (cfg : Config) (env : RunEnv) (g : Globals) : Res Unit :=
  let g := { g with child_pid := env.fork_ret }
  if env.fork_ret < 0 then .halt (.fatal .fork_failed) g
  else if env.fork_ret = 0 then .halt .child g
  else
    let g := if g.exec_tmout ≠ 0 then { g with child_timed_out := false } else g
    let g := { g with trace_bits := env.child_trace
                      stop_soon := g.stop_soon || env.stop_signal }
    if env.waitpid_ret ≤ 0 then .halt (.fatal .waitpid_failed) g
    else
      let g := { g with child_pid := 0 }
      if load_u32 cfg g.trace_bits = cfg.EXEC_FAIL_SIG then .halt (.fatal .exec_failed) g
      else
        let g := { g with trace_bits := classify_counts cfg g.edges_only g.raw_instr_output
                                          g.trace_bits (class_table g.binary_mode) }
        let g := if !g.child_timed_out && !g.stop_soon && WIFSIGNALED env.status
                 then { g with child_crashed := true } else g
        .ret () g

/-- The argument of `exit` at the end of `main`:
`child_crashed * 2 + child_timed_out`. -/
def exit_status (g : Globals) : Nat :=
  g.child_crashed.toNat * 2 + g.child_timed_out.toNat

/-- The function `write_to_testcase(mem, len)`: with `use_stdin` the file
behind descriptor 0 is rewritten with the first `len` bytes of `mem`.
Failures of `ck_write` and `ftruncate` are not modelled. -/
def write_to_testcase (g : Globals) (mem : List u8) (len : Nat) : Globals :=
  if g.use_stdin then { g with testcase := mem.take len } else g

/-- The function `write_to_file(path, mem, len)`; `open_ret` is what
`open(path, O_RDWR | O_CREAT | O_EXCL, 0600)` answers. A negative answer is
fatal; otherwise the file is created with the first `len` bytes of `mem`
and the descriptor is returned. -/
def write_to_file (g : Globals) (path : String) (mem : List u8) (len : Nat)
    (open_ret : Int) : Res Int :=
  if open_ret < 0 then .halt (.fatal .open_failed) g
  else .ret open_ret
    { g with files := g.files ++ [(Sink.file path, FileContent.binary (mem.take len))] }

/-- What the system answers during one `run_target_forkserver`: the results
of the `write` to the control pipe and of the two `read`s from the status
pipe, the two words read, whether SIGALRM and a stop signal were delivered
while the client was blocked reading the status, the bytes the child left
in the shared map, and what `open` answers in `write_to_file` if the stop
path is taken (`out_file` is then the output directory of the batch run, on
which an exclusive create fails). As in `RunEnv`, `timer_fired` only records
the event. -/
structure FsrvEnv where
  ctl_write_ret : Int
  pid_read_ret : Int
  pid_reply : Int
  status_read_ret : Int
  status : Nat
  timer_fired : Bool
  stop_signal : Bool
  child_trace : List u8
  stop_open_ret : Int
  deriving DecidableEq, Repr

/-- The function `run_target_forkserver(argv, mem, len)`. The function
never assigns `child_timed_out` or `prev_timed_out`. -/
def run_target_forkserver (cfg : Config) (env : FsrvEnv) (g : Globals)
    (mem : List u8) (len : Nat) : Res Nat :=
  let g := { g with trace_bits := memset0 cfg.MAP_SIZE g.trace_bits }
  let g := write_to_testcase g mem len
  if env.ctl_write_ret ≠ 4 then
    if g.stop_soon then .ret 0 g else .halt (.fatal .fsrv_request) g
  else
    let g := { g with ctl_sent := g.ctl_sent ++ [g.prev_timed_out] }
    if env.pid_read_ret ≠ 4 then
      if g.stop_soon then .ret 0 g else .halt (.fatal .fsrv_request) g
    else
      let g := { g with child_pid := env.pid_reply }
      if env.pid_reply ≤ 0 then .halt (.fatal .fsrv_misbehaving) g
      else
        let g := { g with trace_bits := env.child_trace
                          stop_soon := g.stop_soon || env.stop_signal }
        if env.status_read_ret ≠ 4 then
          if g.stop_soon then .ret 0 g else .halt (.fatal .fsrv_comm) g
        else
          let g := { g with child_pid := 0 }
          if load_u32 cfg g.trace_bits = cfg.EXEC_FAIL_SIG then
            .halt (.fatal .exec_failed) g
          else
            let g := { g with trace_bits := classify_counts cfg g.edges_only
                                g.raw_instr_output g.trace_bits (class_table g.binary_mode)
                              total_execs := (g.total_execs + 1) % 2 ^ 32 }
            if g.stop_soon then
              match write_to_file g g.out_file g.in_data g.in_len env.stop_open_ret with
              | .halt h g1 => .halt h g1
              | .ret _ g1 => .halt (.exit 1) g1
            else if g.child_timed_out then .ret 0 g
            else if WIFSIGNALED env.status
                || (WIFEXITED env.status && WEXITSTATUS env.status == cfg.MSAN_ERROR)
                || (WIFEXITED env.status && WEXITSTATUS env.status != 0) then .ret 0 g
            else .ret 0 g

/-- Decimal digits of `n`, as `%u` prints them. -/
def fmt_u (n : Nat) : String := toString n

/-- Decimal digits of `n` padded with zeros on the left to six characters, as
`%06u` prints them. -/
def fmt_06u (n : Nat) : String :=
  String.mk (List.replicate (6 - (toString n).length) '0') ++ toString n

/-- The line `fprintf(f, "%06u:%u\n", i, trace_bits[i])`. -/
def text_line (i : Nat) (b : u8) : String := fmt_06u i ++ ":" ++ fmt_u b.val ++ "\n"

/-- The line `fprintf(f, "%u%u\n", trace_bits[i], i)`. -/
def cmin_line (b : u8) (i : Nat) : String := fmt_u b.val ++ fmt_u i ++ "\n"

/-- The local `ret`, the statics `total` and `highest`, and the lines
printed so far, while the text loop of `write_results_to_file` runs. -/
structure WAcc where
  ret : Nat
  total : Nat
  highest : Nat
  lines : List String
  deriving DecidableEq, Repr

/-- The binary-mode loop `for (i = 0; i < MAP_SIZE; i++) if (trace_bits[i]) ret++;`
from index `i` on; the list is `trace_bits` from `i` on. -/
def count_loop (cfg : Config) : Nat → List u8 → Nat → Nat
  | _, [], ret => ret
  | i, b :: rest, ret =>
    if cfg.MAP_SIZE ≤ i then ret
    else if b ≠ 0 then count_loop cfg (i + 1) rest ((ret + 1) % 2 ^ 32)
    else count_loop cfg (i + 1) rest ret

/-- The text-mode loop of `write_results_to_file` from index `i` on; the list
is `trace_bits` from `i` on. `cco` and `caa` are the two locals read from the
environment. -/
def text_loop (cfg : Config) (g : Globals) (cco caa : Bool) :
    Nat → List u8 → WAcc → WAcc
  | _, [], acc => acc
  | i, b :: rest, acc =>
    if cfg.MAP_SIZE ≤ i then acc
    else if b = 0 then text_loop cfg g cco caa (i + 1) rest acc
    else
      let acc := { acc with ret := (acc.ret + 1) % 2 ^ 32
                            total := (acc.total + b.val) % 2 ^ 32
                            highest := if acc.highest < b.val then b.val else acc.highest }
      if g.cmin_mode then
        if g.child_timed_out then acc
        else if !caa && g.child_crashed != cco then acc
        else text_loop cfg g cco caa (i + 1) rest
               { acc with lines := acc.lines ++ [cmin_line b i] }
      else text_loop cfg g cco caa (i + 1) rest
             { acc with lines := acc.lines ++ [text_line i b] }

/-- What the system answers during one `write_results_to_file`: whether
`AFL_CMIN_CRASHES_ONLY` and `AFL_CMIN_ALLOW_ANY` are set, the descriptor
returned by `open` or `dup`, whether `fdopen` succeeds and whether `ck_write`
writes everything. -/
structure WriteEnv where
  cco : Bool
  caa : Bool
  open_ret : Int
  fdopen_ok : Bool
  write_ok : Bool
  deriving DecidableEq, Repr

/-- The destination chosen from the name: a path starting with `/dev/`, the
name `-`, or a file to create. -/
def open_sink (out_file : String) : Sink :=
  if out_file.data.take 5 = "/dev/".data then .device out_file
  else if out_file = "-" then .stdout
  else .file out_file

/-- The function `write_results_to_file(out_file)`. -/
def write_results_to_file (cfg : Config) (env : WriteEnv) (g : Globals)
    (out_file : String) : Res Nat :=
  if env.open_ret < 0 then .halt (.fatal .open_failed) g
  else if g.binary_mode then
    let ret := count_loop cfg 0 g.trace_bits 0
    if !env.write_ok then .halt (.fatal .short_write) g
    else .ret ret { g with files := g.files ++
        [(open_sink out_file, FileContent.binary (g.trace_bits.take cfg.MAP_SIZE))] }
  else if !env.fdopen_ok then .halt (.fatal .fdopen_failed) g
  else
    let acc := text_loop cfg g env.cco env.caa 0 g.trace_bits
      { ret := 0, total := g.total, highest := g.highest, lines := [] }
    .ret acc.ret { g with total := acc.total, highest := acc.highest
                          files := g.files ++ [(open_sink out_file, FileContent.text acc.lines)] }

/-- The function `write_results()`. -/
def write_results (cfg : Config) (env : WriteEnv) (g : Globals) : Res Nat :=
  write_results_to_file cfg env g g.out_file

/-- One answer of `readdir`: the name and type of the entry, and the bytes
of the file of that name (read by `read_file`). -/
structure DirEntry where
  d_name : String
  d_type : Nat
  content : List u8
  deriving DecidableEq, Repr

/-- The value `DT_REG` of `<dirent.h>`. -/
def DT_REG : Nat := 8

/-- The function `read_file(in_file)` on a file that can be opened and read:
`in_len` is the size as a `u32`, `in_data` the bytes read; the warnings are
left out. The return value is `in_len`. -/
def read_file (g : Globals) (content : List u8) : Nat × Globals :=
  let in_len := content.length % 2 ^ 32
  (in_len, { g with in_len := in_len, in_data := content.take in_len })

/-- The call `snprintf(buf, 4096, "%s/%s", dir, name)`: at most 4095
characters are kept. -/
def snprintf_path (dir name : String) : String :=
  String.mk ((dir ++ "/" ++ name).data.take 4095)

/-- One directory entry together with what the system answers if the entry
is executed and its result written. -/
structure BatchItem where
  ent : DirEntry
  fsrv : FsrvEnv
  wr : WriteEnv
  deriving DecidableEq, Repr

/-- The loop `while (done == 0 && (dir_ent = readdir(dir_in)))` of `main`
over the entries `readdir` returns; `tcnt` is the local of `main`. -/
def batch_loop (cfg : Config) (in_dir : String) :
    List BatchItem → Globals → Nat → Res Nat
  | [], g, tcnt => .ret tcnt g
  | it :: rest, g, tcnt =>
    if it.ent.d_name.data.head? = some '.' then batch_loop cfg in_dir rest g tcnt
    else if it.ent.d_type ≠ DT_REG then batch_loop cfg in_dir rest g tcnt
    else
      let outfile := snprintf_path g.out_file it.ent.d_name
      let r := read_file g it.ent.content
      if r.1 ≠ 0 then
        match run_target_forkserver cfg it.fsrv r.2 r.2.in_data r.2.in_len with
        | .halt h g1 => .halt h g1
        | .ret _ g1 =>
          match write_results_to_file cfg it.wr g1 outfile with
          | .halt h g2 => .halt h g2
          | .ret t g2 => batch_loop cfg in_dir rest g2 t
      else batch_loop cfg in_dir rest r.2 tcnt

/-- The end of `main`: the `No instrumentation detected` check when not
quiet, then `exit(child_crashed * 2 + child_timed_out)`. -/
def main_finish (g : Globals) (tcnt : Nat) : Res Unit :=
  if !g.quiet_mode && tcnt = 0 then .halt (.fatal .no_instrumentation) g
  else .halt (.exit (exit_status g)) g

/-- The body of `main` without `-i`, from `run_target` on. -/
def main_single (cfg : Config) (renv : RunEnv) (wenv : WriteEnv) (g : Globals) : Res Unit :=
  match run_target cfg renv g with
  | .halt h g1 => .halt h g1
  | .ret _ g1 =>
    match write_results cfg wenv g1 with
    | .halt h g2 => .halt h g2
    | .ret tcnt g2 => main_finish g2 tcnt

/-- The body of `main` with `-i in_dir`, from the directory loop on. -/
def main_batch (cfg : Config) (in_dir : String) (items : List BatchItem) (g : Globals) :
    Res Unit :=
  match batch_loop cfg in_dir items g 0 with
  | .halt h g1 => .halt h g1
  | .ret tcnt g1 => main_finish g1 tcnt

/-- Number of non-zero entries of a map. -/
def count_nonzero (mem : List u8) : Nat := mem.countP (fun b => b ≠ 0)

/-- The non-zero entries of a map with their indices, in ascending index
order; `i` is the index of the first element of the list. -/
def nonzero_entries : Nat → List u8 → List (Nat × u8)
  | _, [] => []
  | i, b :: rest => if b ≠ 0 then (i, b) :: nonzero_entries (i + 1) rest
                    else nonzero_entries (i + 1) rest

/-- The globals when the process starts: every static is zero except
`use_stdin`; the option letters seen by `getopt` give the mode flags and
`setup_shm` a zeroed map. -/
def Globals.start (cfg : Config) (out_file : String) (exec_tmout : Nat)
    (quiet_mode edges_only raw_instr_output cmin_mode binary_mode : Bool) : Globals :=
  { trace_bits := List.replicate cfg.MAP_SIZE 0, child_pid := 0, out_file := out_file
    in_data := [], in_len := 0, exec_tmout := exec_tmout, total := 0, highest := 0
    total_execs := 0, quiet_mode := quiet_mode || cmin_mode, edges_only := edges_only
    raw_instr_output := raw_instr_output, cmin_mode := cmin_mode, binary_mode := binary_mode
    use_stdin := true, stop_soon := false, child_timed_out := false, child_crashed := false
    prev_timed_out := 0, testcase := [], ctl_sent := [], files := [] }

/-- A configuration with a small map, for concrete runs. -/
def cfg8 : Config :=
  { MAP_SIZE := 8, EXEC_FAIL_SIG := 0xfee1dead, MSAN_ERROR := 86, big_endian := false }

/-- The two `break` conditions of the corpus-minimization branch of
`write_results_to_file`. -/
def cmin_withheld (g : Globals) (cco caa : Bool) : Bool :=
  g.child_timed_out || (!caa && g.child_crashed != cco)

/-- A map with two non-zero entries, written in corpus-minimization mode
with `child_timed_out` set. -/
def sample_cmin_timed_out : Globals :=
  { Globals.start cfg8 "out" 1000 false false false true false with
    trace_bits := [1, 0, 1, 0, 0, 0, 0, 0], child_timed_out := true }

/-- A map with two non-zero entries, written in corpus-minimization mode
after a run that `run_target` marked crashed. -/
def sample_cmin_crashed : Globals :=
  { Globals.start cfg8 "out" 1000 false false false true false with
    trace_bits := [1, 0, 1, 0, 0, 0, 0, 0], child_crashed := true }

/-- An environment in which every call of `write_results_to_file` succeeds
and neither `AFL_CMIN_CRASHES_ONLY` nor `AFL_CMIN_ALLOW_ANY` is set. -/
def sample_write_env : WriteEnv :=
  { cco := false, caa := false, open_ret := 3, fdopen_ok := true, write_ok := true }

/-- The line in the form the specification gives for plain text mode: the
index in decimal, a colon, the count in decimal. -/
def claim_text_line (i : Nat) (b : u8) : String := fmt_u i ++ ":" ++ fmt_u b.val ++ "\n"

/-- A classified map with one non-zero entry, written in plain text mode. -/
def sample_plain : Globals :=
  { Globals.start cfg8 "out" 1000 false false false false false with
    trace_bits := [0, 0, 0, 7, 0, 0, 0, 0] }

/-- A classified map written in corpus-minimization mode after a normal run. -/
def sample_cmin : Globals :=
  { Globals.start cfg8 "out" 1000 false false false true false with
    trace_bits := [1, 0, 0, 7, 0, 0, 0, 0] }

/-- The entries for which `main` runs the target and writes a result: the
name does not start with `.`, the type is `DT_REG`, and `read_file` returns
a non-zero length. -/
def executed (it : BatchItem) : Bool :=
  it.ent.d_name.data.head? != some '.' && it.ent.d_type == DT_REG
    && it.ent.content.length % 2 ^ 32 != 0

/-- The entries the specification says get a result file: regular files
whose name does not start with `.`, zero-length ones included. -/
def claim_executed (it : BatchItem) : Bool :=
  it.ent.d_name.data.head? != some '.' && it.ent.d_type == DT_REG

/-- Every system call of the execution and of the result write succeeds, no
stop signal arrives, and the child did not leave `EXEC_FAIL_SIG`. -/
def benign (cfg : Config) (it : BatchItem) : Bool :=
  it.fsrv.ctl_write_ret == 4 && it.fsrv.pid_read_ret == 4 && decide (0 < it.fsrv.pid_reply)
    && it.fsrv.status_read_ret == 4 && !it.fsrv.stop_signal
    && load_u32 cfg it.fsrv.child_trace != cfg.EXEC_FAIL_SIG
    && decide (0 ≤ it.wr.open_ret) && it.wr.fdopen_ok && it.wr.write_ok

/-- Answers of a fork server run that ends normally with two edges hit. -/
def sample_fsrv_env : FsrvEnv :=
  { ctl_write_ret := 4, pid_read_ret := 4, pid_reply := 78, status_read_ret := 4,
    status := 0, timer_fired := false, stop_signal := false,
    child_trace := [1, 0, 0, 3, 0, 0, 0, 0], stop_open_ret := -1 }

/-- The listing `a.bin` (one byte), `.hidden`, `b.bin` (zero-length). -/
def sample_listing : List BatchItem :=
  [ { ent := { d_name := "a.bin", d_type := DT_REG, content := [65] },
      fsrv := sample_fsrv_env, wr := sample_write_env },
    { ent := { d_name := ".hidden", d_type := DT_REG, content := [66] },
      fsrv := sample_fsrv_env, wr := sample_write_env },
    { ent := { d_name := "b.bin", d_type := DT_REG, content := [] },
      fsrv := sample_fsrv_env, wr := sample_write_env } ]

/-- The globals when a quiet batch run over the output directory `out`
starts. -/
def sample_batch_start : Globals := Globals.start cfg8 "out" 1000 true false false false false

/-- The globals when a single run with a timeout of one second starts. -/
def sample_start : Globals := Globals.start cfg8 "out" 1000 false false false false false

/-- Answers of a direct run in which `execv` failed: the child wrote
`EXEC_FAIL_SIG` (little-endian) at the head of the map and exited with 0. -/
def sample_run_env_fail : RunEnv :=
  { fork_ret := 77, timer_fired := false, stop_signal := false, waitpid_ret := 77,
    status := 0, child_trace := [0xad, 0xde, 0xe1, 0xfe, 0, 0, 0, 0] }

/-- Answers of a fork server run whose child left `EXEC_FAIL_SIG` and was
killed by signal 11. -/
def sample_fsrv_env_fail : FsrvEnv :=
  { ctl_write_ret := 4, pid_read_ret := 4, pid_reply := 78, status_read_ret := 4,
    status := 11, timer_fired := true, stop_signal := false,
    child_trace := [0xad, 0xde, 0xe1, 0xfe, 0, 0, 0, 0], stop_open_ret := -1 }

/-- Answers of a direct run in which the timer fired and the child was
killed by signal 9. -/
def sample_run_env_timeout : RunEnv :=
  { fork_ret := 77, timer_fired := true, stop_signal := false, waitpid_ret := 77,
    status := 9, child_trace := [1, 0, 9, 0, 0, 0, 0, 200] }

/-- The globals after the run of `sample_run_env_timeout` from `sample_start`. -/
def sample_timeout_result : Globals :=
  { sample_start with trace_bits := [1, 0, 5, 0, 0, 0, 0, 8], child_crashed := true }

/-- Sum of all counter values of a map. -/
def map_sum (mem : List u8) : Nat := (mem.map (fun b => b.val)).sum

/-- Largest counter value of a map (0 for an empty map). -/
def map_max (mem : List u8) : Nat := mem.foldr (fun b m => max b.val m) 0

/-- Value of the first non-zero entry of a map, 0 if there is none. -/
def first_nonzero : List u8 → Nat
  | [] => 0
  | b :: rest => if b ≠ 0 then b.val else first_nonzero rest

/-- Value of a decimal digit character. -/
def digit_val (c : Char) : Nat := c.toNat - 48

/-- The number a list of decimal digit characters denotes, most significant
digit first. -/
def decimal_val (l : List Char) : Nat := l.foldl (fun a c => a * 10 + digit_val c) 0

/-- Answers of a fork server run in which the timer fired and the child was
killed by signal 9. -/
def sample_fsrv_env_timeout : FsrvEnv :=
  { ctl_write_ret := 4, pid_read_ret := 4, pid_reply := 79, status_read_ret := 4,
    status := 9, timer_fired := true, stop_signal := false,
    child_trace := [1, 0, 0, 0, 0, 0, 0, 0], stop_open_ret := -1 }

/-- The listing `a.bin`, whose run times out, then `b.bin`, whose run ends
normally. -/
def sample_listing_timeout : List BatchItem :=
  [ { ent := { d_name := "a.bin", d_type := DT_REG, content := [65] },
      fsrv := sample_fsrv_env_timeout, wr := sample_write_env },
    { ent := { d_name := "b.bin", d_type := DT_REG, content := [66] },
      fsrv := sample_fsrv_env, wr := sample_write_env } ]

/-- A classified map with two hit edges, written in binary mode. -/
def sample_binary : Globals :=
  { Globals.start cfg8 "out" 1000 false false false false true with
    trace_bits := [1, 0, 2, 0, 0, 0, 0, 0] }

/-! ## Classification -/

theorem classify_loop_length (f : u8 → u8) (n : Nat) (mem : List u8) :
    (classify_loop f n mem).length = mem.length := by
  induction n generalizing mem with
  | zero => simp [classify_loop]
  | succ n ih =>
    cases mem with
    | nil => simp [classify_loop]
    | cons b rest => simp [classify_loop, ih]

theorem classify_loop_map (f : u8 → u8) (n : Nat) (mem : List u8) (h : mem.length ≤ n) :
    classify_loop f n mem = mem.map f := by
  induction n generalizing mem with
  | zero =>
    have : mem = [] := List.length_eq_zero.mp (Nat.le_zero.mp h)
    subst this
    simp [classify_loop]
  | succ n ih =>
    cases mem with
    | nil => simp [classify_loop]
    | cons b rest =>
      have hr : rest.length ≤ n := by simpa using h
      simp [classify_loop, ih rest hr]

theorem classify_loop_idem (f : u8 → u8) (hf : ∀ b, f (f b) = f b) (n : Nat) (mem : List u8) :
    classify_loop f n (classify_loop f n mem) = classify_loop f n mem := by
  induction n generalizing mem with
  | zero => simp [classify_loop]
  | succ n ih =>
    cases mem with
    | nil => simp [classify_loop]
    | cons b rest => simp [classify_loop, ih, hf]

set_option maxRecDepth 1000000 in
theorem human_table (v : u8) :
    (v.val ≤ 3 → lookup count_class_human v = v) ∧
    (4 ≤ v.val ∧ v.val ≤ 7 → lookup count_class_human v = 4) ∧
    (8 ≤ v.val ∧ v.val ≤ 15 → lookup count_class_human v = 5) ∧
    (16 ≤ v.val ∧ v.val ≤ 31 → lookup count_class_human v = 6) ∧
    (32 ≤ v.val ∧ v.val ≤ 127 → lookup count_class_human v = 7) ∧
    (128 ≤ v.val ∧ v.val ≤ 255 → lookup count_class_human v = 8) := by
  revert v
  decide

set_option maxRecDepth 1000000 in
theorem binary_pow (v : u8) (hv : v ≠ 0) :
    (lookup count_class_binary v).val = 2 ^ ((lookup count_class_human v).val - 1) := by
  revert v
  decide

set_option maxRecDepth 1000000 in
theorem human_pos (v : u8) (hv : v ≠ 0) : 1 ≤ (lookup count_class_human v).val := by
  revert v
  decide

set_option maxRecDepth 1000000 in
theorem binary_range (v : u8) :
    lookup count_class_binary v ∈ ([0, 1, 2, 4, 8, 16, 32, 64, 128] : List u8) := by
  revert v
  decide

theorem binary_eq_iff (v w : u8) :
    lookup count_class_binary v = lookup count_class_binary w ↔
      lookup count_class_human v = lookup count_class_human w := by
  have h0b : lookup count_class_binary 0 = 0 := by decide
  have h0h : lookup count_class_human 0 = 0 := by decide
  have hvb : ∀ x : u8, x ≠ 0 → lookup count_class_binary x ≠ 0 := by
    intro x hx h
    have := binary_pow x hx
    rw [h] at this
    have hp : 0 < 2 ^ ((lookup count_class_human x).val - 1) := Nat.pos_pow_of_pos _ (by decide)
    rw [← this] at hp
    exact absurd hp (by decide)
  have hvh : ∀ x : u8, x ≠ 0 → lookup count_class_human x ≠ 0 := by
    intro x hx h
    have := human_pos x hx
    rw [h] at this
    simp at this
  by_cases hv : v = 0
  · subst hv
    by_cases hw : w = 0
    · subst hw; simp
    · rw [h0b, h0h]
      constructor
      · intro h; exact absurd h.symm (hvb w hw)
      · intro h; exact absurd h.symm (hvh w hw)
  · by_cases hw : w = 0
    · subst hw
      rw [h0b, h0h]
      constructor
      · intro h; exact absurd h (hvb v hv)
      · intro h; exact absurd h (hvh v hv)
    · have bv := binary_pow v hv
      have bw := binary_pow w hw
      have pv := human_pos v hv
      have pw := human_pos w hw
      constructor
      · intro h
        have h2 : 2 ^ ((lookup count_class_human v).val - 1)
            = 2 ^ ((lookup count_class_human w).val - 1) := by rw [← bv, ← bw, h]
        have h3 := Nat.pow_right_injective (le_refl 2) h2
        apply Fin.ext
        omega
      · intro h
        apply Fin.ext
        rw [bv, bw, h]

/-- C1: in default mode (`edges_only`, `raw_instr_output` and `binary_mode`
clear) `classify_counts` replaces every byte of the trace map by its entry
in `count_class_human`, and that table maps 0..3 to themselves, 4..7 to 4,
8..15 to 5, 16..31 to 6, 32..127 to 7 and 128..255 to 8. -/
theorem classify_counts_default (cfg : Config) (mem : List u8)
    (hlen : mem.length = cfg.MAP_SIZE) :
    classify_counts cfg false false mem (class_table false)
        = mem.map (fun b => lookup count_class_human b) ∧
    ∀ v : u8,
      (v.val ≤ 3 → lookup count_class_human v = v) ∧
      (4 ≤ v.val ∧ v.val ≤ 7 → lookup count_class_human v = 4) ∧
      (8 ≤ v.val ∧ v.val ≤ 15 → lookup count_class_human v = 5) ∧
      (16 ≤ v.val ∧ v.val ≤ 31 → lookup count_class_human v = 6) ∧
      (32 ≤ v.val ∧ v.val ≤ 127 → lookup count_class_human v = 7) ∧
      (128 ≤ v.val ∧ v.val ≤ 255 → lookup count_class_human v = 8) := by
  refine ⟨?_, human_table⟩
  simp only [classify_counts, class_table, Bool.false_eq_true, if_false, Bool.not_false, if_true]
  exact classify_loop_map _ _ _ (le_of_eq hlen)

theorem classify_counts_default_witness :
    ([5, 0, 200, 3] : List u8).length = 4 ∧
    classify_counts { cfg8 with MAP_SIZE := 4 } false false [5, 0, 200, 3] (class_table false)
      = [4, 0, 8, 3] :=
  ⟨rfl, (classify_counts_default { cfg8 with MAP_SIZE := 4 } [5, 0, 200, 3] rfl).1.trans
    (by decide)⟩

/-- C2: `count_class_binary[0] = 0`; for every raw value `v` in 1..255,
`count_class_binary[v] = 2 ^ (count_class_human[v] - 1)`; two raw values have
the same binary class exactly when they have the same human class; and the
non-zero binary classes are exactly 1, 2, 4, 8, 16, 32, 64 and 128. -/
theorem count_class_binary_pow2 :
    lookup count_class_binary 0 = 0 ∧
    (∀ v : u8, v ≠ 0 →
      (lookup count_class_binary v).val = 2 ^ ((lookup count_class_human v).val - 1)) ∧
    (∀ v w : u8, lookup count_class_binary v = lookup count_class_binary w ↔
      lookup count_class_human v = lookup count_class_human w) ∧
    (∀ c : u8, c ≠ 0 → ((∃ v : u8, lookup count_class_binary v = c) ↔
      c ∈ ([1, 2, 4, 8, 16, 32, 64, 128] : List u8))) := by
  refine ⟨by decide, binary_pow, binary_eq_iff, ?_⟩
  intro c hc
  constructor
  · rintro ⟨v, rfl⟩
    have := binary_range v
    simp only [List.mem_cons] at this ⊢
    rcases this with h | h
    · exact absurd h hc
    · exact h
  · intro h
    simp only [List.mem_cons, List.mem_singleton, List.not_mem_nil, or_false] at h
    rcases h with h | h | h | h | h | h | h | h <;> subst h
    · exact ⟨1, by decide⟩
    · exact ⟨2, by decide⟩
    · exact ⟨3, by decide⟩
    · exact ⟨4, by decide⟩
    · exact ⟨8, by decide⟩
    · exact ⟨16, by decide⟩
    · exact ⟨32, by decide⟩
    · exact ⟨128, by decide⟩

/-- C3: with `edges_only` set, whatever `raw_instr_output` and the table
passed, `classify_counts` yields a map of the same length in which each byte
is 1 if the raw byte was non-zero and 0 if it was 0. -/
theorem classify_counts_edges_only (cfg : Config) (raw : Bool) (mem map : List u8)
    (hlen : mem.length = cfg.MAP_SIZE) :
    (classify_counts cfg true raw mem map).length = mem.length ∧
    classify_counts cfg true raw mem map = mem.map (fun b => if b ≠ 0 then 1 else 0) := by
  have hm : classify_counts cfg true raw mem map
      = mem.map (fun b => if b ≠ 0 then 1 else 0) := by
    simp only [classify_counts, if_true]
    rw [classify_loop_map _ _ _ (le_of_eq hlen)]
    apply List.map_congr_left
    intro b _
    by_cases hb : b = 0 <;> simp [hb]
  exact ⟨by rw [hm, List.length_map], hm⟩

theorem classify_counts_edges_only_witness :
    ([5, 0, 200, 1] : List u8).length = 4 ∧
    classify_counts { cfg8 with MAP_SIZE := 4 } true false [5, 0, 200, 1] count_class_human
      = [1, 0, 1, 1] :=
  ⟨rfl, (classify_counts_edges_only { cfg8 with MAP_SIZE := 4 } false [5, 0, 200, 1]
    count_class_human rfl).2.trans (by decide)⟩

/-- C4: `edges_only` classification is idempotent: applying `classify_counts`
with `edges_only` set twice gives the same map as applying it once. -/
theorem classify_counts_edges_only_idem (cfg : Config) (raw1 raw2 : Bool)
    (mem map1 map2 : List u8) :
    classify_counts cfg true raw2 (classify_counts cfg true raw1 mem map1) map2
      = classify_counts cfg true raw1 mem map1 := by
  simp only [classify_counts, if_true]
  apply classify_loop_idem
  intro b
  by_cases hb : b = 0 <;> simp [hb]

/-! ## Run outcome -/

/-- C5: in `run_target` and in `run_target_forkserver`, once the child has
finished (the wait, respectively the three pipe transfers, succeeded), a
trace map whose first four bytes are `EXEC_FAIL_SIG` gives the fatal
exec failure, for every status, timer, stop signal and prior flags: the map
is left as the child wrote it (not classified), `child_crashed` and
`total_execs` keep their values and nothing is written. -/
theorem exec_fail_sig_fatal (cfg : Config) (g : Globals) (re : RunEnv) (fe : FsrvEnv)
    (mem : List u8) (len : Nat)
    (hfork : 0 < re.fork_ret) (hwait : 0 < re.waitpid_ret)
    (hsig : load_u32 cfg re.child_trace = cfg.EXEC_FAIL_SIG)
    (hctl : fe.ctl_write_ret = 4) (hpidr : fe.pid_read_ret = 4) (hpid : 0 < fe.pid_reply)
    (hst : fe.status_read_ret = 4)
    (hsig2 : load_u32 cfg fe.child_trace = cfg.EXEC_FAIL_SIG) :
    (∃ g1, run_target cfg re g = .halt (.fatal .exec_failed) g1 ∧
      g1.trace_bits = re.child_trace ∧ g1.child_crashed = g.child_crashed ∧
      g1.files = g.files) ∧
    (∃ g2, run_target_forkserver cfg fe g mem len = .halt (.fatal .exec_failed) g2 ∧
      g2.trace_bits = fe.child_trace ∧ g2.child_crashed = g.child_crashed ∧
      g2.total_execs = g.total_execs ∧ g2.files = g.files) := by
  constructor
  · have h1 : ¬ re.fork_ret < 0 := by omega
    have h2 : ¬ re.fork_ret = 0 := by omega
    have h3 : ¬ re.waitpid_ret ≤ 0 := by omega
    simp only [run_target, h1, h2, h3, if_false, hsig, if_true]
    refine ⟨_, rfl, rfl, ?_, ?_⟩ <;> (dsimp only; split <;> rfl)
  · have h1 : ¬ fe.pid_reply ≤ 0 := by omega
    simp only [run_target_forkserver, hctl, hpidr, h1, hst, ne_eq, not_true_eq_false,
      if_false, hsig2, if_true]
    refine ⟨_, rfl, rfl, ?_, ?_, ?_⟩ <;>
      (simp only [write_to_testcase]; split <;> rfl)

theorem exec_fail_sig_fatal_witness :
    (∃ g1, run_target cfg8 sample_run_env_fail sample_start = .halt (.fatal .exec_failed) g1 ∧
      g1.trace_bits = sample_run_env_fail.child_trace ∧
      g1.child_crashed = sample_start.child_crashed ∧ g1.files = sample_start.files) ∧
    (∃ g2, run_target_forkserver cfg8 sample_fsrv_env_fail sample_start [65] 1
        = .halt (.fatal .exec_failed) g2 ∧
      g2.trace_bits = sample_fsrv_env_fail.child_trace ∧
      g2.child_crashed = sample_start.child_crashed ∧
      g2.total_execs = sample_start.total_execs ∧ g2.files = sample_start.files) :=
  exec_fail_sig_fatal cfg8 sample_start sample_run_env_fail sample_fsrv_env_fail [65] 1
    (by decide) (by decide) (by decide) rfl rfl (by decide) rfl (by decide)

theorem run_target_flags (cfg : Config) (re : RunEnv) (g g1 : Globals)
    (hret : run_target cfg re g = .ret () g1) :
    g1.child_timed_out = (if g.exec_tmout ≠ 0 then false else g.child_timed_out) ∧
    g1.stop_soon = (g.stop_soon || re.stop_signal) ∧
    g1.child_crashed = (g.child_crashed ||
      (!g1.child_timed_out && !g1.stop_soon && WIFSIGNALED re.status)) := by
  unfold run_target at hret
  simp only at hret
  split at hret
  · cases hret
  · split at hret
    · cases hret
    · split at hret
      · cases hret
      · split at hret
        · cases hret
        · injection hret with _ hg
          subst hg
          by_cases ht : g.exec_tmout = 0 <;>
            cases h1 : g.child_timed_out <;>
            cases h3 : g.stop_soon <;> cases h4 : re.stop_signal <;>
            cases h5 : WIFSIGNALED re.status <;> cases h6 : g.child_crashed <;>
            simp [ht, h1, h3, h4, h5, h6]

theorem write_results_to_file_flags (cfg : Config) (env : WriteEnv) (g : Globals)
    (out : String) :
    (write_results_to_file cfg env g out).globals.child_crashed = g.child_crashed ∧
    (write_results_to_file cfg env g out).globals.child_timed_out = g.child_timed_out ∧
    (write_results_to_file cfg env g out).globals.quiet_mode = g.quiet_mode := by
  unfold write_results_to_file
  split
  · exact ⟨rfl, rfl, rfl⟩
  · split
    · dsimp only
      split <;> exact ⟨rfl, rfl, rfl⟩
    · split <;> exact ⟨rfl, rfl, rfl⟩

theorem run_target_returns (cfg : Config) (re : RunEnv) (g : Globals)
    (hfork : 0 < re.fork_ret) (hwait : 0 < re.waitpid_ret)
    (hne : load_u32 cfg re.child_trace ≠ cfg.EXEC_FAIL_SIG) :
    ∃ g1, run_target cfg re g = .ret () g1 := by
  have h1 : ¬ re.fork_ret < 0 := by omega
  have h2 : ¬ re.fork_ret = 0 := by omega
  have h3 : ¬ re.waitpid_ret ≤ 0 := by omega
  simp only [run_target, h1, h2, h3, if_false, hne]
  exact ⟨_, rfl⟩

theorem run_target_ret_flags (cfg : Config) (re : RunEnv) (wenv : WriteEnv)
    (g g1 : Globals) (hret : run_target cfg re g = .ret () g1) :
    g1.child_crashed = (g.child_crashed ||
      (!g1.child_timed_out && !g1.stop_soon && WIFSIGNALED re.status)) ∧
    (g1.child_crashed ≠ g.child_crashed →
      g1.child_crashed = true ∧ g1.child_timed_out = false ∧ g1.stop_soon = false ∧
        WIFSIGNALED re.status = true) ∧
    (g.child_crashed = false →
      (g1.child_timed_out = true → g1.child_crashed = false) ∧
      exit_status g1 = (if g1.child_timed_out then 1 else if g1.child_crashed then 2 else 0) ∧
      exit_status g1 ≠ 3 ∧
      ∀ c g2, main_single cfg re wenv g = .halt (.exit c) g2 → c = exit_status g1) := by
  obtain ⟨_, _, hc⟩ := run_target_flags cfg re g g1 hret
  refine ⟨hc, ?_⟩
  constructor
  · intro hne
    cases h6 : g.child_crashed <;> cases h7 : g1.child_crashed <;>
      cases h8 : g1.child_timed_out <;> cases h9 : g1.stop_soon <;>
      cases h10 : WIFSIGNALED re.status <;> simp_all
  · intro h0
    refine ⟨?_, ?_, ?_, ?_⟩
    · intro ht
      rw [hc, h0, ht]
      rfl
    · cases h7 : g1.child_crashed <;> cases h8 : g1.child_timed_out <;>
        simp_all [exit_status]
    · cases h7 : g1.child_crashed <;> cases h8 : g1.child_timed_out <;>
        simp_all [exit_status]
    · intro c g2 hm
      unfold main_single at hm
      rw [hret] at hm
      simp only [write_results] at hm
      have hf := write_results_to_file_flags cfg wenv g1 g1.out_file
      cases hw : write_results_to_file cfg wenv g1 g1.out_file with
      | halt h g3 =>
        rw [hw] at hm
        simp only at hm
        unfold write_results_to_file at hw
        split at hw
        · cases hw; cases hm
        · split at hw
          · dsimp only at hw
            split at hw
            · cases hw; cases hm
            · cases hw
          · split at hw
            · cases hw; cases hm
            · cases hw
      | ret t g3 =>
        rw [hw] at hm hf
        simp only [Res.globals] at hf
        simp only [main_finish] at hm
        split at hm
        · cases hm
        · injection hm with h1 _
          injection h1 with h1
          rw [← h1]
          simp only [exit_status, hf.1, hf.2.1]

/-- On the flags alone `run_target` keeps the order of the two tests: when
the child was forked and waited for and did not leave `EXEC_FAIL_SIG`, it
returns, having changed `child_crashed` only to set it, and only with
`child_timed_out` clear, `stop_soon` clear and a signal-terminated status;
starting with `child_crashed` clear the value `2 * child_crashed +
child_timed_out` is never 3 and is the code with which `main` exits. -/
theorem run_target_crash_flag (cfg : Config) (re : RunEnv) (wenv : WriteEnv) (g : Globals)
    (hfork : 0 < re.fork_ret) (hwait : 0 < re.waitpid_ret)
    (hne : load_u32 cfg re.child_trace ≠ cfg.EXEC_FAIL_SIG) :
    ∃ g1, run_target cfg re g = .ret () g1 ∧
      g1.child_crashed = (g.child_crashed ||
        (!g1.child_timed_out && !g1.stop_soon && WIFSIGNALED re.status)) ∧
      (g1.child_crashed ≠ g.child_crashed →
        g1.child_crashed = true ∧ g1.child_timed_out = false ∧ g1.stop_soon = false ∧
          WIFSIGNALED re.status = true) ∧
      (g.child_crashed = false →
        (g1.child_timed_out = true → g1.child_crashed = false) ∧
        exit_status g1
          = (if g1.child_timed_out then 1 else if g1.child_crashed then 2 else 0) ∧
        exit_status g1 ≠ 3 ∧
        ∀ c g2, main_single cfg re wenv g = .halt (.exit c) g2 → c = exit_status g1) := by
  obtain ⟨g1, hret⟩ := run_target_returns cfg re g hfork hwait hne
  exact ⟨g1, hret, run_target_ret_flags cfg re wenv g g1 hret⟩

/-- With a timeout configured, a run whose child ends by a signal, for
instance killed when the timer fired, is marked crashed and not timed out,
whether or not the timer fired: nothing in the file sets `child_timed_out`. -/
theorem run_target_signal_with_timer (cfg : Config) (re : RunEnv) (g : Globals)
    (hfork : 0 < re.fork_ret) (hwait : 0 < re.waitpid_ret)
    (hne : load_u32 cfg re.child_trace ≠ cfg.EXEC_FAIL_SIG)
    (htm : g.exec_tmout ≠ 0) (hs : g.stop_soon = false) (hsig : re.stop_signal = false)
    (hk : WIFSIGNALED re.status = true) :
    ∃ g1, run_target cfg re g = .ret () g1 ∧ g1.child_timed_out = false ∧
      g1.child_crashed = true ∧ exit_status g1 = 2 := by
  obtain ⟨g1, hret⟩ := run_target_returns cfg re g hfork hwait hne
  obtain ⟨h1, h2, h3⟩ := run_target_flags cfg re g g1 hret
  have t1 : g1.child_timed_out = false := by rw [h1]; simp [htm]
  have s1 : g1.stop_soon = false := by rw [h2, hs, hsig]; rfl
  have c1 : g1.child_crashed = true := by rw [h3, t1, s1, hk]; simp
  exact ⟨g1, hret, t1, c1, by simp [exit_status, t1, c1]⟩

/-- C6: in the code a timeout does not take precedence over a crash. In a
run with a timeout of 1000 ms whose timer fired and whose child was killed
by signal 9, `run_target` returns with `child_timed_out` clear and
`child_crashed` set, the exit status `2 * child_crashed + child_timed_out`
is 2 and `main` exits with 2, where the specification and the comment at
the head of the file give 1 for a timeout. -/
theorem timeout_marked_crashed :
    sample_start.exec_tmout = 1000 ∧ sample_run_env_timeout.timer_fired = true ∧
    WIFSIGNALED sample_run_env_timeout.status = true ∧
    run_target cfg8 sample_run_env_timeout sample_start = .ret () sample_timeout_result ∧
    sample_timeout_result.child_timed_out = false ∧
    sample_timeout_result.child_crashed = true ∧
    exit_status sample_timeout_result = 2 ∧
    ∃ g2, main_single cfg8 sample_run_env_timeout sample_write_env sample_start
      = .halt (.exit 2) g2 :=
  ⟨rfl, rfl, by decide, by decide, rfl, rfl, rfl, ⟨_, rfl⟩⟩

/-! ## Result writer and batch driver -/

theorem count_nonzero_cons (b : u8) (rest : List u8) :
    count_nonzero (b :: rest) = count_nonzero rest + (if b ≠ 0 then 1 else 0) := by
  unfold count_nonzero
  rw [List.countP_cons]
  by_cases hb : b = 0 <;> simp [hb]

theorem count_nonzero_le (mem : List u8) : count_nonzero mem ≤ mem.length :=
  List.countP_le_length _

theorem nonzero_entries_length (i : Nat) (mem : List u8) :
    (nonzero_entries i mem).length = count_nonzero mem := by
  induction mem generalizing i with
  | nil => rfl
  | cons b rest ih =>
    rw [count_nonzero_cons]
    by_cases hb : b = 0 <;> simp [nonzero_entries, hb, ih]

theorem count_loop_eq (cfg : Config) (i : Nat) (rest : List u8) (ret : Nat)
    (hi : i + rest.length ≤ cfg.MAP_SIZE) (hr : ret + rest.length < 2 ^ 32) :
    count_loop cfg i rest ret = ret + count_nonzero rest := by
  induction rest generalizing i ret with
  | nil => simp [count_loop, count_nonzero]
  | cons b rest ih =>
    simp only [List.length_cons] at hi hr
    have h1 : ¬ cfg.MAP_SIZE ≤ i := by omega
    rw [count_nonzero_cons]
    unfold count_loop
    simp only [h1, if_false]
    by_cases hb : b = 0
    · simp only [hb, ne_eq, not_true_eq_false, if_false]
      rw [ih (i + 1) ret (by omega) (by omega)]
      simp
    · simp only [ne_eq, hb, not_false_eq_true, if_true]
      have h2 : (ret + 1) % 2 ^ 32 = ret + 1 := Nat.mod_eq_of_lt (by omega)
      rw [h2, ih (i + 1) (ret + 1) (by omega) (by omega)]
      omega

theorem text_loop_ret (cfg : Config) (g : Globals) (cco caa : Bool) (i : Nat)
    (rest : List u8) (acc : WAcc)
    (hm : ¬ (g.cmin_mode = true ∧ cmin_withheld g cco caa = true))
    (hi : i + rest.length ≤ cfg.MAP_SIZE) (hr : acc.ret + rest.length < 2 ^ 32) :
    (text_loop cfg g cco caa i rest acc).ret = acc.ret + count_nonzero rest := by
  induction rest generalizing i acc with
  | nil => simp [text_loop, count_nonzero]
  | cons b rest ih =>
    simp only [List.length_cons] at hi hr
    have h1 : ¬ cfg.MAP_SIZE ≤ i := by omega
    rw [count_nonzero_cons]
    unfold text_loop
    simp only [h1, if_false]
    by_cases hb : b = 0
    · simp only [hb, if_true, ne_eq, not_true_eq_false, if_false]
      rw [ih (i + 1) acc (by omega) (by omega)]
      simp
    · simp only [hb, if_false, ne_eq, not_false_eq_true, if_true]
      have h2 : (acc.ret + 1) % 2 ^ 32 = acc.ret + 1 := Nat.mod_eq_of_lt (by omega)
      by_cases hc : g.cmin_mode = true
      · have hw : cmin_withheld g cco caa = false := by
          cases h : cmin_withheld g cco caa
          · rfl
          · exact absurd ⟨hc, h⟩ hm
        simp only [cmin_withheld, Bool.or_eq_false_iff] at hw
        simp only [hc, if_true, hw.1, hw.2, Bool.false_eq_true, if_false]
        rw [ih (i + 1) _ (by omega) (by simp only [h2]; omega)]
        simp only [h2]
        omega
      · have hc1 : g.cmin_mode = false := by simpa using hc
        simp only [hc1, Bool.false_eq_true, if_false]
        rw [ih (i + 1) _ (by omega) (by simp only [h2]; omega)]
        simp only [h2]
        omega

theorem text_loop_ret_withheld (cfg : Config) (g : Globals) (cco caa : Bool) (i : Nat)
    (rest : List u8) (acc : WAcc)
    (hc : g.cmin_mode = true) (hw : cmin_withheld g cco caa = true)
    (hi : i + rest.length ≤ cfg.MAP_SIZE) (hr : acc.ret + 1 < 2 ^ 32) :
    (text_loop cfg g cco caa i rest acc).ret = acc.ret + min 1 (count_nonzero rest) := by
  induction rest generalizing i with
  | nil => simp [text_loop, count_nonzero]
  | cons b rest ih =>
    simp only [List.length_cons] at hi
    have h1 : ¬ cfg.MAP_SIZE ≤ i := by omega
    rw [count_nonzero_cons]
    unfold text_loop
    simp only [h1, if_false]
    by_cases hb : b = 0
    · simp only [hb, if_true, ne_eq, not_true_eq_false, if_false]
      rw [ih (i + 1) (by omega)]
      simp
    · simp only [hb, if_false, ne_eq, not_false_eq_true, if_true, hc]
      have h2 : (acc.ret + 1) % 2 ^ 32 = acc.ret + 1 := Nat.mod_eq_of_lt (by omega)
      simp only [cmin_withheld, Bool.or_eq_true] at hw
      have h3 : min 1 (count_nonzero rest + 1) = 1 := by omega
      rcases hw with hw | hw
      · simp only [hw, if_true, h2, h3]
      · by_cases ht : g.child_timed_out = true
        · simp only [ht, if_true, h2, h3]
        · have ht1 : g.child_timed_out = false := by simpa using ht
          simp only [ht1, hw, Bool.false_eq_true, if_false, if_true, h2, h3]

theorem text_loop_lines_cmin (cfg : Config) (g : Globals) (cco caa : Bool) (i : Nat)
    (rest : List u8) (acc : WAcc)
    (hc : g.cmin_mode = true) (hw : cmin_withheld g cco caa = false)
    (hi : i + rest.length ≤ cfg.MAP_SIZE) :
    (text_loop cfg g cco caa i rest acc).lines
      = acc.lines ++ (nonzero_entries i rest).map (fun e => cmin_line e.2 e.1) := by
  induction rest generalizing i acc with
  | nil => simp [text_loop, nonzero_entries]
  | cons b rest ih =>
    simp only [List.length_cons] at hi
    have h1 : ¬ cfg.MAP_SIZE ≤ i := by omega
    unfold text_loop nonzero_entries
    simp only [h1, if_false]
    simp only [cmin_withheld, Bool.or_eq_false_iff] at hw
    by_cases hb : b = 0
    · simp only [hb, if_true, ne_eq, not_true_eq_false, if_false]
      exact ih (i + 1) acc (by omega)
    · simp only [hb, if_false, ne_eq, not_false_eq_true, if_true, hc, hw.1, hw.2,
        Bool.false_eq_true]
      rw [ih (i + 1) _ (by omega)]
      simp

theorem text_loop_lines_withheld (cfg : Config) (g : Globals) (cco caa : Bool) (i : Nat)
    (rest : List u8) (acc : WAcc)
    (hc : g.cmin_mode = true) (hw : cmin_withheld g cco caa = true) :
    (text_loop cfg g cco caa i rest acc).lines = acc.lines := by
  induction rest generalizing i with
  | nil => simp [text_loop]
  | cons b rest ih =>
    unfold text_loop
    split
    · rfl
    · by_cases hb : b = 0
      · simp only [hb, if_true]
        exact ih (i + 1)
      · simp only [hb, if_false, hc, if_true]
        simp only [cmin_withheld, Bool.or_eq_true] at hw
        by_cases ht : g.child_timed_out = true
        · simp only [ht, if_true]
        · have ht1 : g.child_timed_out = false := by simpa using ht
          have hw2 : (!caa && g.child_crashed != cco) = true := by
            rcases hw with hw | hw
            · exact absurd hw ht
            · exact hw
          simp only [ht1, hw2, Bool.false_eq_true, if_false, if_true]

theorem text_loop_lines_plain (cfg : Config) (g : Globals) (cco caa : Bool) (i : Nat)
    (rest : List u8) (acc : WAcc)
    (hc : g.cmin_mode = false) (hi : i + rest.length ≤ cfg.MAP_SIZE) :
    (text_loop cfg g cco caa i rest acc).lines
      = acc.lines ++ (nonzero_entries i rest).map (fun e => text_line e.1 e.2) := by
  induction rest generalizing i acc with
  | nil => simp [text_loop, nonzero_entries]
  | cons b rest ih =>
    simp only [List.length_cons] at hi
    have h1 : ¬ cfg.MAP_SIZE ≤ i := by omega
    unfold text_loop nonzero_entries
    simp only [h1, if_false]
    by_cases hb : b = 0
    · simp only [hb, if_true, ne_eq, not_true_eq_false, if_false]
      exact ih (i + 1) acc (by omega)
    · simp only [hb, if_false, ne_eq, not_false_eq_true, if_true, hc, Bool.false_eq_true]
      rw [ih (i + 1) _ (by omega)]
      simp

/-- C7, as stated, fails: in corpus-minimization mode with `child_timed_out`
set the loop stops at the first non-zero entry, so a map with two non-zero
entries gives the return value 1; the same happens after a crash when
neither `AFL_CMIN_CRASHES_ONLY` nor `AFL_CMIN_ALLOW_ANY` is set. -/
theorem write_results_ret_counterexample :
    (∃ r g1, write_results_to_file cfg8 sample_write_env sample_cmin_timed_out "out"
        = .ret r g1 ∧
      r = 1 ∧ count_nonzero sample_cmin_timed_out.trace_bits = 2 ∧
      r ≠ count_nonzero sample_cmin_timed_out.trace_bits) ∧
    (∃ r g1, write_results_to_file cfg8 sample_write_env sample_cmin_crashed "out"
        = .ret r g1 ∧
      r = 1 ∧ count_nonzero sample_cmin_crashed.trace_bits = 2 ∧
      r ≠ count_nonzero sample_cmin_crashed.trace_bits) :=
  ⟨⟨_, _, rfl, rfl, by decide, by decide⟩, ⟨_, _, rfl, rfl, by decide, by decide⟩⟩

/-- C7, amended: when the sink opens and the write succeeds,
`write_results_to_file` returns the number of non-zero entries of the map in
binary mode, in plain text mode, and in corpus-minimization text mode when no
line is withheld; in corpus-minimization text mode with lines withheld
(timeout, or crash mismatch without allow-any) it returns 1 if the map has a
non-zero entry and 0 otherwise. -/
theorem write_results_ret (cfg : Config) (env : WriteEnv) (g : Globals) (out : String)
    (hlen : g.trace_bits.length = cfg.MAP_SIZE) (hsz : cfg.MAP_SIZE < 2 ^ 32)
    (hopen : 0 ≤ env.open_ret) (hfd : env.fdopen_ok = true) (hwr : env.write_ok = true) :
    ∃ g1, write_results_to_file cfg env g out
      = .ret (if g.binary_mode = false ∧ g.cmin_mode = true ∧
                  cmin_withheld g env.cco env.caa = true
              then min 1 (count_nonzero g.trace_bits)
              else count_nonzero g.trace_bits) g1 := by
  have h1 : ¬ env.open_ret < 0 := by omega
  unfold write_results_to_file
  simp only [h1, if_false, hfd, hwr, Bool.not_true, Bool.false_eq_true]
  by_cases hb : g.binary_mode = true
  · simp only [hb, if_true, Bool.true_eq_false, false_and, if_false]
    rw [count_loop_eq cfg 0 g.trace_bits 0 (by omega) (by omega)]
    simp
  · have hb1 : g.binary_mode = false := by simpa using hb
    simp only [hb1, Bool.false_eq_true, if_false, true_and]
    by_cases hm : g.cmin_mode = true ∧ cmin_withheld g env.cco env.caa = true
    · rw [text_loop_ret_withheld cfg g env.cco env.caa 0 g.trace_bits _ hm.1 hm.2 (by omega)
        (by simp)]
      simp only [hm, and_self, if_true, Nat.zero_add]
      exact ⟨_, rfl⟩
    · rw [text_loop_ret cfg g env.cco env.caa 0 g.trace_bits _ hm (by omega)
        (by simp only; omega)]
      simp only [hm, if_false, Nat.zero_add]
      exact ⟨_, rfl⟩

theorem write_results_ret_witness :
    ∃ g1, write_results_to_file cfg8 sample_write_env sample_cmin_timed_out "out"
      = .ret (min 1 (count_nonzero sample_cmin_timed_out.trace_bits)) g1 :=
  write_results_ret cfg8 sample_write_env sample_cmin_timed_out "out" rfl (by decide)
    (by decide) rfl rfl

theorem nonzero_entries_mem (i : Nat) (mem : List u8) (e : Nat × u8) :
    e ∈ nonzero_entries i mem ↔ ∃ k, e.1 = i + k ∧ mem[k]? = some e.2 ∧ e.2 ≠ 0 := by
  induction mem generalizing i with
  | nil => simp [nonzero_entries]
  | cons b rest ih =>
    have step : (∃ k, e.1 = i + k ∧ (b :: rest)[k]? = some e.2 ∧ e.2 ≠ 0) ↔
        ((e.1 = i ∧ b = e.2 ∧ e.2 ≠ 0) ∨ ∃ k, e.1 = i + 1 + k ∧ rest[k]? = some e.2 ∧ e.2 ≠ 0) := by
      constructor
      · rintro ⟨k, h1, h2, h3⟩
        cases k with
        | zero =>
          left
          simp only [List.getElem?_cons_zero, Option.some.injEq] at h2
          exact ⟨by omega, h2, h3⟩
        | succ k =>
          right
          simp only [List.getElem?_cons_succ] at h2
          exact ⟨k, by omega, h2, h3⟩
      · rintro (⟨h1, h2, h3⟩ | ⟨k, h1, h2, h3⟩)
        · exact ⟨0, by omega, by simp [h2], h3⟩
        · exact ⟨k + 1, by omega, by simpa using h2, h3⟩
    rw [step]
    unfold nonzero_entries
    by_cases hb : b = 0
    · simp only [hb, ne_eq, not_true_eq_false, if_false]
      rw [ih (i + 1)]
      constructor
      · intro h; exact Or.inr h
      · rintro (⟨_, h2, h3⟩ | h)
        · exact absurd h2.symm h3
        · exact h
    · simp only [ne_eq, hb, not_false_eq_true, if_true, List.mem_cons]
      rw [ih (i + 1)]
      constructor
      · rintro (h | h)
        · left
          subst h
          exact ⟨rfl, rfl, hb⟩
        · exact Or.inr h
      · rintro (⟨h1, h2, _⟩ | h)
        · left
          exact Prod.ext h1 h2.symm
        · exact Or.inr h

theorem nonzero_entries_sorted (i : Nat) (mem : List u8) :
    (nonzero_entries i mem).Pairwise (fun a b => a.1 < b.1) := by
  induction mem generalizing i with
  | nil => simp [nonzero_entries]
  | cons b rest ih =>
    unfold nonzero_entries
    split
    · rw [List.pairwise_cons]
      refine ⟨?_, ih (i + 1)⟩
      intro e he
      obtain ⟨k, hk, _⟩ := (nonzero_entries_mem (i + 1) rest e).mp he
      simp only
      omega
    · exact ih (i + 1)

/-- C8: in corpus-minimization text mode, if `child_timed_out` is set, or if
allow-any is unset and `child_crashed` differs from the crashes-only flag,
`write_results_to_file` writes no line, whatever the map; otherwise it writes
exactly one line for each non-zero entry of the map. -/
theorem cmin_lines (cfg : Config) (env : WriteEnv) (g : Globals) (out : String)
    (hlen : g.trace_bits.length = cfg.MAP_SIZE)
    (hbin : g.binary_mode = false) (hcmin : g.cmin_mode = true)
    (hopen : 0 ≤ env.open_ret) (hfd : env.fdopen_ok = true) :
    (∃ r g1, write_results_to_file cfg env g out = .ret r g1 ∧
      g1.files = g.files ++ [(open_sink out, FileContent.text
        (if g.child_timed_out = true ∨ (env.caa = false ∧ g.child_crashed ≠ env.cco) then []
         else (nonzero_entries 0 g.trace_bits).map (fun e => cmin_line e.2 e.1)))]) ∧
    ((nonzero_entries 0 g.trace_bits).map (fun e => cmin_line e.2 e.1)).length
      = count_nonzero g.trace_bits := by
  refine ⟨?_, by rw [List.length_map, nonzero_entries_length]⟩
  have h1 : ¬ env.open_ret < 0 := by omega
  unfold write_results_to_file
  simp only [h1, if_false, hbin, Bool.false_eq_true, hfd, Bool.not_true]
  refine ⟨_, _, rfl, ?_⟩
  simp only
  by_cases hw : cmin_withheld g env.cco env.caa = true
  · rw [text_loop_lines_withheld cfg g env.cco env.caa 0 g.trace_bits _ hcmin hw]
    have hc : g.child_timed_out = true ∨ (env.caa = false ∧ g.child_crashed ≠ env.cco) := by
      simp only [cmin_withheld, Bool.or_eq_true, Bool.and_eq_true, Bool.not_eq_true',
        bne_iff_ne] at hw
      exact hw
    simp only [hc, if_true]
  · have hw1 : cmin_withheld g env.cco env.caa = false := by simpa using hw
    rw [text_loop_lines_cmin cfg g env.cco env.caa 0 g.trace_bits _ hcmin hw1 (by omega)]
    have hc : ¬ (g.child_timed_out = true ∨ (env.caa = false ∧ g.child_crashed ≠ env.cco)) := by
      intro h
      apply hw
      simp only [cmin_withheld, Bool.or_eq_true, Bool.and_eq_true, Bool.not_eq_true',
        bne_iff_ne]
      exact h
    simp only [hc, if_false, List.nil_append]

theorem cmin_lines_witness :
    (∃ r g1, write_results_to_file cfg8 sample_write_env sample_cmin "out" = .ret r g1 ∧
      g1.files = [(Sink.file "out", FileContent.text ["10\n", "73\n"])]) ∧
    count_nonzero sample_cmin.trace_bits = 2 :=
  ⟨(cmin_lines cfg8 sample_write_env sample_cmin "out" rfl rfl rfl (by decide) rfl).1,
   (cmin_lines cfg8 sample_write_env sample_cmin "out" rfl rfl rfl (by decide) rfl).2.symm.trans
     rfl⟩

/-- C9, as stated, fails: the index is printed with `%06u`, so the entry 7 at
index 3 gives the line `000003:7`, not `3:7`. -/
theorem plain_lines_counterexample :
    ∃ r g1, write_results_to_file cfg8 sample_write_env sample_plain "out" = .ret r g1 ∧
      g1.files = [(Sink.file "out", FileContent.text ["000003:7\n"])] ∧
      (nonzero_entries 0 sample_plain.trace_bits).map (fun e => claim_text_line e.1 e.2)
        = ["3:7\n"] ∧
      g1.files ≠ [(Sink.file "out", FileContent.text
        ((nonzero_entries 0 sample_plain.trace_bits).map (fun e => claim_text_line e.1 e.2)))] :=
  ⟨_, _, rfl, rfl, rfl, by decide⟩

/-- C9, amended: in plain text mode (`binary_mode` and `cmin_mode` clear) the
output of `write_results_to_file` is exactly one line per non-zero entry, in
ascending index order and none for a zero entry, each line being the index
in decimal padded with zeros on the left to six digits, a colon, the count in
decimal and a newline. -/
theorem plain_lines (cfg : Config) (env : WriteEnv) (g : Globals) (out : String)
    (hlen : g.trace_bits.length = cfg.MAP_SIZE)
    (hbin : g.binary_mode = false) (hcmin : g.cmin_mode = false)
    (hopen : 0 ≤ env.open_ret) (hfd : env.fdopen_ok = true) :
    (∃ r g1, write_results_to_file cfg env g out = .ret r g1 ∧
      g1.files = g.files ++ [(open_sink out, FileContent.text
        ((nonzero_entries 0 g.trace_bits).map (fun e =>
          String.mk (List.replicate (6 - (toString e.1).length) '0') ++ toString e.1
            ++ ":" ++ toString e.2.val ++ "\n")))]) ∧
    (nonzero_entries 0 g.trace_bits).Pairwise (fun a b => a.1 < b.1) ∧
    (∀ e : Nat × u8, e ∈ nonzero_entries 0 g.trace_bits ↔
      g.trace_bits[e.1]? = some e.2 ∧ e.2 ≠ 0) ∧
    (nonzero_entries 0 g.trace_bits).length = count_nonzero g.trace_bits := by
  refine ⟨?_, nonzero_entries_sorted 0 _, ?_, nonzero_entries_length 0 _⟩
  · have h1 : ¬ env.open_ret < 0 := by omega
    unfold write_results_to_file
    simp only [h1, if_false, hbin, Bool.false_eq_true, hfd, Bool.not_true]
    refine ⟨_, _, rfl, ?_⟩
    simp only
    rw [text_loop_lines_plain cfg g env.cco env.caa 0 g.trace_bits _ hcmin (by omega)]
    rfl
  · intro e
    rw [nonzero_entries_mem]
    constructor
    · rintro ⟨k, h1, h2, h3⟩
      have : e.1 = k := by omega
      rw [this]
      exact ⟨h2, h3⟩
    · rintro ⟨h2, h3⟩
      exact ⟨e.1, by omega, h2, h3⟩

theorem plain_lines_witness :
    ∃ r g1, write_results_to_file cfg8 sample_write_env sample_plain "out" = .ret r g1 ∧
      g1.files = [(Sink.file "out", FileContent.text ["000003:7\n"])] :=
  (plain_lines cfg8 sample_write_env sample_plain "out" rfl rfl rfl (by decide) rfl).1

theorem run_target_forkserver_benign (cfg : Config) (env : FsrvEnv) (g : Globals)
    (mem : List u8) (len : Nat) (hstop : g.stop_soon = false)
    (hctl : env.ctl_write_ret = 4) (hpidr : env.pid_read_ret = 4) (hpid : 0 < env.pid_reply)
    (hst : env.status_read_ret = 4) (hsig : env.stop_signal = false)
    (hne : load_u32 cfg env.child_trace ≠ cfg.EXEC_FAIL_SIG) :
    ∃ g1, run_target_forkserver cfg env g mem len = .ret 0 g1 ∧ g1.stop_soon = false ∧
      g1.out_file = g.out_file ∧ g1.files = g.files ∧
      g1.ctl_sent = g.ctl_sent ++ [g.prev_timed_out] := by
  have h1 : ¬ env.pid_reply ≤ 0 := by omega
  cases hu : g.use_stdin <;>
    simp only [run_target_forkserver, write_to_testcase, hu, hctl, hpidr, h1, hst, ne_eq,
      not_true_eq_false, if_false, if_true, hne, hsig, Bool.or_false, hstop,
      Bool.false_eq_true] <;>
    (split
     · exact ⟨_, rfl, rfl, rfl, rfl, rfl⟩
     · split <;> exact ⟨_, rfl, rfl, rfl, rfl, rfl⟩)

theorem write_results_to_file_ok (cfg : Config) (env : WriteEnv) (g : Globals) (out : String)
    (hopen : 0 ≤ env.open_ret) (hfd : env.fdopen_ok = true) (hwr : env.write_ok = true) :
    ∃ r g1 c, write_results_to_file cfg env g out = .ret r g1 ∧
      g1.files = g.files ++ [(open_sink out, c)] ∧ g1.stop_soon = g.stop_soon ∧
      g1.out_file = g.out_file ∧ g1.ctl_sent = g.ctl_sent := by
  have h1 : ¬ env.open_ret < 0 := by omega
  unfold write_results_to_file
  simp only [h1, if_false, hfd, hwr, Bool.not_true, Bool.false_eq_true]
  split
  · exact ⟨_, _, _, rfl, rfl, rfl, rfl, rfl⟩
  · exact ⟨_, _, _, rfl, rfl, rfl, rfl, rfl⟩

theorem batch_loop_benign (cfg : Config) (in_dir : String) (items : List BatchItem)
    (g : Globals) (tcnt : Nat) (hstop : g.stop_soon = false)
    (hb : ∀ it ∈ items, benign cfg it = true) :
    ∃ t g1, batch_loop cfg in_dir items g tcnt = .ret t g1 ∧
      g1.files.map Prod.fst = g.files.map Prod.fst ++
        (items.filter executed).map
          (fun it => open_sink (snprintf_path g.out_file it.ent.d_name)) ∧
      g1.ctl_sent.length = g.ctl_sent.length + (items.filter executed).length := by
  induction items generalizing g tcnt with
  | nil => exact ⟨tcnt, g, rfl, by simp, by simp⟩
  | cons it rest ih =>
    have hrest : ∀ x ∈ rest, benign cfg x = true := fun x hx => hb x (List.mem_cons_of_mem _ hx)
    have hit := hb it (List.mem_cons_self _ _)
    unfold batch_loop
    by_cases hdot : it.ent.d_name.data.head? = some '.'
    · have hex : executed it = false := by simp [executed, hdot]
      simp only [hdot, if_true, List.filter_cons, hex, Bool.false_eq_true, if_false]
      exact ih g tcnt hstop hrest
    · simp only [hdot, if_false]
      by_cases hreg : it.ent.d_type = DT_REG
      · simp only [hreg, ne_eq, not_true_eq_false, if_false]
        by_cases hz : it.ent.content.length % 2 ^ 32 = 0
        · have hz1 : it.ent.content.length % 4294967296 = 0 := hz
          have hex : executed it = false := by simp [executed, hz1]
          simp only [read_file, hz, if_false, List.filter_cons, hex, Bool.false_eq_true]
          exact ih _ tcnt hstop hrest
        · have hz1 : ¬ it.ent.content.length % 4294967296 = 0 := hz
          have hex : executed it = true := by simp [executed, hdot, hreg, hz1]
          simp only [read_file, hz, not_false_eq_true, if_true, List.filter_cons, hex]
          simp only [benign, Bool.and_eq_true, beq_iff_eq, decide_eq_true_eq, bne_iff_ne,
            ne_eq, Bool.not_eq_true'] at hit
          obtain ⟨⟨⟨⟨⟨⟨⟨⟨b1, b2⟩, b3⟩, b4⟩, b5⟩, b6⟩, b7⟩, b8⟩, b9⟩ := hit
          obtain ⟨g1, hr, s1, o1, f1, c1⟩ := run_target_forkserver_benign cfg it.fsrv
            { g with in_len := it.ent.content.length % 2 ^ 32,
                     in_data := it.ent.content.take (it.ent.content.length % 2 ^ 32) }
            (it.ent.content.take (it.ent.content.length % 2 ^ 32))
            (it.ent.content.length % 2 ^ 32) hstop b1 b2 b3 b4 b5 b6
          simp only at hr o1 f1 c1
          rw [hr]
          simp only
          obtain ⟨r, g2, c, hw, f2, s2, o2, c2⟩ := write_results_to_file_ok cfg it.wr g1
            (snprintf_path g.out_file it.ent.d_name) b7 b8 b9
          rw [hw]
          simp only
          obtain ⟨t, g3, h3, f3, c3⟩ := ih g2 r (by rw [s2, s1]) hrest
          refine ⟨t, g3, h3, ?_, ?_⟩
          · rw [f3, f2, f1, o2, o1]
            simp
          · rw [c3, c2, c1]
            simp
            omega
      · have hex : executed it = false := by simp [executed, hreg]
        simp only [hreg, ne_eq, not_false_eq_true, if_true, List.filter_cons, hex,
          Bool.false_eq_true, if_false]
        exact ih g tcnt hstop hrest

theorem snprintf_path_fits (dir name : String)
    (h : dir.length + 1 + name.length ≤ 4095) :
    snprintf_path dir name = dir ++ "/" ++ name := by
  unfold snprintf_path
  have hl : (dir ++ "/" ++ name).data.length ≤ 4095 := by
    simp only [String.data_append, List.length_append, String.length_data]
    have h1 : (['/'] : List Char).length = 1 := rfl
    omega
  rw [List.take_of_length_le hl]

/-- C10, as stated, fails: for the listing `a.bin` (non-empty), `.hidden`,
`b.bin` (zero-length), with every system call succeeding, the loop returns
having written the single result file `out/a.bin`; the zero-length `b.bin`
is neither executed nor given a result file. -/
theorem batch_counterexample :
    ∃ t g1, batch_loop cfg8 "in" sample_listing sample_batch_start 0 = .ret t g1 ∧
      g1.files.map Prod.fst = [Sink.file "out/a.bin"] ∧ g1.ctl_sent.length = 1 ∧
      (sample_listing.filter claim_executed).map
          (fun it => Sink.file ("out/" ++ it.ent.d_name))
        = [Sink.file "out/a.bin", Sink.file "out/b.bin"] ∧
      g1.files.map Prod.fst ≠ (sample_listing.filter claim_executed).map
          (fun it => Sink.file ("out/" ++ it.ent.d_name)) :=
  ⟨_, _, rfl, rfl, rfl, rfl, by decide⟩

/-- C10, amended: in batch mode, when every system call succeeds, no stop
signal arrives and no run leaves `EXEC_FAIL_SIG`, the loop returns, and it
has run the target once (one go message each) and written one result, named
`out_file/d_name`, for exactly the entries that are regular files, whose
name does not start with `.` and whose length is not zero, in listing order;
hidden, non-regular and zero-length entries get neither a run nor a result
file. -/
theorem batch_results (cfg : Config) (in_dir : String) (items : List BatchItem)
    (g : Globals) (hstop : g.stop_soon = false)
    (hb : ∀ it ∈ items, benign cfg it = true) :
    (∃ t g1, batch_loop cfg in_dir items g 0 = .ret t g1 ∧
      g1.files.map Prod.fst = g.files.map Prod.fst ++
        (items.filter executed).map
          (fun it => open_sink (snprintf_path g.out_file it.ent.d_name)) ∧
      g1.ctl_sent.length = g.ctl_sent.length + (items.filter executed).length) ∧
    (∀ it : BatchItem, executed it = true ↔
      (it.ent.d_name.data.head? ≠ some '.' ∧ it.ent.d_type = DT_REG ∧
        it.ent.content.length % 2 ^ 32 ≠ 0)) ∧
    (∀ name : String, g.out_file.length + 1 + name.length ≤ 4095 →
      snprintf_path g.out_file name = g.out_file ++ "/" ++ name) := by
  refine ⟨batch_loop_benign cfg in_dir items g 0 hstop hb, ?_, ?_⟩
  · intro it
    simp only [executed, Bool.and_eq_true, bne_iff_ne, ne_eq, beq_iff_eq, and_assoc]
  · intro name h
    exact snprintf_path_fits _ _ h

theorem batch_results_witness :
    ∃ t g1, batch_loop cfg8 "in" sample_listing sample_batch_start 0 = .ret t g1 ∧
      g1.files.map Prod.fst = [Sink.file "out/a.bin"] ∧
      g1.ctl_sent.length = 0 + 1 :=
  (batch_results cfg8 "in" sample_listing sample_batch_start rfl (by decide)).1

/-! ## Go message, statistics and line rendering -/

/-- C11: the go message does not carry the previous timeout. In a session
over `a.bin`, whose timer fires and whose child is killed by signal 9, and
`b.bin`, the first run returns with `prev_timed_out` still 0 (and
`child_timed_out` clear), and both go messages written to the control pipe
are 0. -/
theorem go_message_after_timeout :
    (sample_fsrv_env_timeout.timer_fired = true ∧
      WIFSIGNALED sample_fsrv_env_timeout.status = true) ∧
    (∃ g1, run_target_forkserver cfg8 sample_fsrv_env_timeout sample_batch_start [65] 1
        = .ret 0 g1 ∧ g1.prev_timed_out = 0 ∧ g1.child_timed_out = false) ∧
    (∃ t g2, batch_loop cfg8 "in" sample_listing_timeout sample_batch_start 0 = .ret t g2 ∧
      g2.ctl_sent = [0, 0]) :=
  ⟨⟨rfl, by decide⟩, ⟨_, rfl, rfl, rfl⟩, ⟨_, _, rfl, rfl⟩⟩

theorem run_target_forkserver_prev_timed_out (cfg : Config) (env : FsrvEnv) (g : Globals)
    (mem : List u8) (len : Nat) :
    (run_target_forkserver cfg env g mem len).globals.prev_timed_out = g.prev_timed_out := by
  cases hu : g.use_stdin <;>
    simp only [run_target_forkserver, write_to_testcase, hu, Bool.false_eq_true, if_false,
      if_true] <;>
    (repeat' split) <;>
    first
      | rfl
      | (rename_i heq
         unfold write_to_file at heq
         split at heq <;> first
           | (cases heq; rfl)
           | cases heq)

theorem text_loop_total (cfg : Config) (g : Globals) (cco caa : Bool) (i : Nat)
    (rest : List u8) (acc : WAcc)
    (hm : ¬ (g.cmin_mode = true ∧ cmin_withheld g cco caa = true))
    (hi : i + rest.length ≤ cfg.MAP_SIZE) (ht : acc.total < 2 ^ 32) :
    (text_loop cfg g cco caa i rest acc).total = (acc.total + map_sum rest) % 2 ^ 32 ∧
    (text_loop cfg g cco caa i rest acc).highest = max acc.highest (map_max rest) := by
  induction rest generalizing i acc with
  | nil =>
    simp only [text_loop, map_sum, map_max, List.map_nil, List.sum_nil, Nat.add_zero,
      List.foldr_nil, Nat.max_zero, and_true]
    exact (Nat.mod_eq_of_lt ht).symm
  | cons b rest ih =>
    simp only [List.length_cons] at hi
    have h1 : ¬ cfg.MAP_SIZE ≤ i := by omega
    have hs : map_sum (b :: rest) = b.val + map_sum rest := by simp [map_sum]
    have hx : map_max (b :: rest) = max b.val (map_max rest) := by simp [map_max]
    unfold text_loop
    simp only [h1, if_false]
    by_cases hb : b = 0
    · have hb0 : b.val = 0 := by rw [hb]; rfl
      simp only [hb, if_true]
      obtain ⟨e1, e2⟩ := ih (i + 1) acc (by omega) ht
      rw [hb] at hs hx
      rw [e1, e2, hs, hx]
      simp
    · simp only [hb, if_false]
      have hlt : (acc.total + b.val) % 2 ^ 32 < 2 ^ 32 := Nat.mod_lt _ (by decide)
      have key : ∀ acc2 : WAcc, acc2.total = (acc.total + b.val) % 2 ^ 32 →
          acc2.highest = (if acc.highest < b.val then b.val else acc.highest) →
          (text_loop cfg g cco caa (i + 1) rest acc2).total
              = (acc.total + map_sum (b :: rest)) % 2 ^ 32 ∧
          (text_loop cfg g cco caa (i + 1) rest acc2).highest
              = max acc.highest (map_max (b :: rest)) := by
        intro acc2 t2 h2
        obtain ⟨e1, e2⟩ := ih (i + 1) acc2 (by omega) (by rw [t2]; exact hlt)
        rw [e1, e2, t2, h2, hs, hx]
        constructor
        · rw [Nat.add_mod, Nat.mod_mod, ← Nat.add_mod, Nat.add_assoc]
        · split <;> omega
      by_cases hc : g.cmin_mode = true
      · have hw : cmin_withheld g cco caa = false := by
          cases h : cmin_withheld g cco caa
          · rfl
          · exact absurd ⟨hc, h⟩ hm
        simp only [cmin_withheld, Bool.or_eq_false_iff] at hw
        simp only [hc, if_true, hw.1, hw.2, Bool.false_eq_true, if_false]
        exact key _ rfl rfl
      · have hc1 : g.cmin_mode = false := by simpa using hc
        simp only [hc1, Bool.false_eq_true, if_false]
        exact key _ rfl rfl

theorem text_loop_total_withheld (cfg : Config) (g : Globals) (cco caa : Bool) (i : Nat)
    (rest : List u8) (acc : WAcc)
    (hc : g.cmin_mode = true) (hw : cmin_withheld g cco caa = true)
    (hi : i + rest.length ≤ cfg.MAP_SIZE) (ht : acc.total < 2 ^ 32) :
    (text_loop cfg g cco caa i rest acc).total = (acc.total + first_nonzero rest) % 2 ^ 32 ∧
    (text_loop cfg g cco caa i rest acc).highest = max acc.highest (first_nonzero rest) := by
  induction rest generalizing i with
  | nil =>
    simp only [text_loop, first_nonzero, Nat.add_zero, Nat.max_zero, and_true]
    exact (Nat.mod_eq_of_lt ht).symm
  | cons b rest ih =>
    simp only [List.length_cons] at hi
    have h1 : ¬ cfg.MAP_SIZE ≤ i := by omega
    unfold text_loop first_nonzero
    simp only [h1, if_false]
    by_cases hb : b = 0
    · simp only [hb, if_true, ne_eq, not_true_eq_false, if_false]
      exact ih (i + 1) (by omega)
    · simp only [hb, if_false, ne_eq, not_false_eq_true, if_true, hc]
      have hmax : (if acc.highest < b.val then b.val else acc.highest)
          = max acc.highest b.val := by split <;> omega
      simp only [cmin_withheld, Bool.or_eq_true] at hw
      by_cases htm : g.child_timed_out = true
      · simp only [htm, if_true, hmax, and_self]
      · have ht1 : g.child_timed_out = false := by simpa using htm
        have hw2 : (!caa && g.child_crashed != cco) = true := by
          rcases hw with hw | hw
          · exact absurd hw htm
          · exact hw
        simp only [ht1, hw2, Bool.false_eq_true, if_false, if_true, hmax, and_self]

/-- C12, as stated, fails: in binary mode a write leaves the statistics
untouched; for a map with entries 1 and 2 and statistics 0, 0 the total and
the maximum are still 0 afterwards, not 3 and 2. -/
theorem write_results_stats_counterexample :
    ∃ r g1, write_results_to_file cfg8 sample_write_env sample_binary "out" = .ret r g1 ∧
      g1.total = 0 ∧ g1.highest = 0 ∧
      (sample_binary.total + map_sum sample_binary.trace_bits) % 2 ^ 32 = 3 ∧
      max sample_binary.highest (map_max sample_binary.trace_bits) = 2 ∧
      g1.total ≠ (sample_binary.total + map_sum sample_binary.trace_bits) % 2 ^ 32 ∧
      g1.highest ≠ max sample_binary.highest (map_max sample_binary.trace_bits) :=
  ⟨_, _, rfl, rfl, rfl, by decide, by decide, by decide, by decide⟩

/-- C12, amended: when the sink opens and the write succeeds, a write in
plain text mode, or in corpus-minimization text mode with no line withheld,
leaves the total equal to the old total plus the sum of all counter values
of the map (modulo 2^32) and the maximum equal to the larger of the old
maximum and the largest counter value; a write in binary mode leaves both
unchanged; a corpus-minimization write with lines withheld accumulates only
the first non-zero entry. No write lowers the maximum. -/
theorem write_results_stats (cfg : Config) (env : WriteEnv) (g : Globals) (out : String)
    (hlen : g.trace_bits.length = cfg.MAP_SIZE) (htot : g.total < 2 ^ 32)
    (hopen : 0 ≤ env.open_ret) (hfd : env.fdopen_ok = true) (hwr : env.write_ok = true) :
    ∃ r g1, write_results_to_file cfg env g out = .ret r g1 ∧
      g1.total = (if g.binary_mode = true then g.total
        else if g.cmin_mode = true ∧ cmin_withheld g env.cco env.caa = true
          then (g.total + first_nonzero g.trace_bits) % 2 ^ 32
        else (g.total + map_sum g.trace_bits) % 2 ^ 32) ∧
      g1.highest = (if g.binary_mode = true then g.highest
        else if g.cmin_mode = true ∧ cmin_withheld g env.cco env.caa = true
          then max g.highest (first_nonzero g.trace_bits)
        else max g.highest (map_max g.trace_bits)) ∧
      g.highest ≤ g1.highest := by
  have h1 : ¬ env.open_ret < 0 := by omega
  unfold write_results_to_file
  simp only [h1, if_false, hfd, hwr, Bool.not_true, Bool.false_eq_true]
  by_cases hb : g.binary_mode = true
  · simp only [hb, if_true]
    exact ⟨_, _, rfl, rfl, rfl, le_refl _⟩
  · have hb1 : g.binary_mode = false := by simpa using hb
    simp only [hb1, Bool.false_eq_true, if_false]
    refine ⟨_, _, rfl, ?_⟩
    simp only
    by_cases hm : g.cmin_mode = true ∧ cmin_withheld g env.cco env.caa = true
    · obtain ⟨e1, e2⟩ := text_loop_total_withheld cfg g env.cco env.caa 0 g.trace_bits
        { ret := 0, total := g.total, highest := g.highest, lines := [] } hm.1 hm.2
        (by omega) htot
      simp only at e1 e2
      rw [e1, e2]
      simp only [hm, and_self, if_true, true_and]
      omega
    · obtain ⟨e1, e2⟩ := text_loop_total cfg g env.cco env.caa 0 g.trace_bits
        { ret := 0, total := g.total, highest := g.highest, lines := [] } hm
        (by omega) htot
      simp only at e1 e2
      rw [e1, e2]
      simp only [hm, if_false, true_and]
      omega

theorem write_results_stats_witness :
    ∃ r g1, write_results_to_file cfg8 sample_write_env sample_cmin "out" = .ret r g1 ∧
      g1.total = 8 ∧ g1.highest = 7 :=
  (write_results_stats cfg8 sample_write_env sample_cmin "out" rfl (by decide) (by decide)
      rfl rfl).elim
    (fun r h => h.elim (fun g1 h1 => ⟨r, g1, h1.1, h1.2.1.trans (by decide),
      h1.2.2.1.trans (by decide)⟩))

theorem digit_val_digitChar (k : Nat) (hk : k < 10) : digit_val (Nat.digitChar k) = k := by
  interval_cases k <;> rfl

theorem decimal_val_append (l : List Char) (c : Char) :
    decimal_val (l ++ [c]) = decimal_val l * 10 + digit_val c := by
  simp [decimal_val, List.foldl_append]

theorem toDigitsCore_decimal (fuel n : Nat) (ds : List Char) (h : n < fuel) :
    ∃ l, Nat.toDigitsCore 10 fuel n ds = l ++ ds ∧ decimal_val l = n := by
  induction fuel generalizing n ds with
  | zero => omega
  | succ fuel ih =>
    unfold Nat.toDigitsCore
    simp only
    have hd : digit_val (Nat.digitChar (n % 10)) = n % 10 :=
      digit_val_digitChar _ (Nat.mod_lt _ (by decide))
    by_cases h0 : n / 10 = 0
    · simp only [h0, if_true]
      refine ⟨[Nat.digitChar (n % 10)], rfl, ?_⟩
      have := decimal_val_append [] (Nat.digitChar (n % 10))
      simp only [List.nil_append] at this
      rw [this, hd]
      simp only [decimal_val, List.foldl_nil]
      omega
    · simp only [h0, if_false]
      obtain ⟨l, e1, e2⟩ := ih (n / 10) (Nat.digitChar (n % 10) :: ds) (by omega)
      refine ⟨l ++ [Nat.digitChar (n % 10)], ?_, ?_⟩
      · rw [e1]
        simp
      · rw [decimal_val_append, e2, hd]
        omega

theorem decimal_val_fmt_u (n : Nat) : decimal_val (fmt_u n).data = n := by
  obtain ⟨l, e1, e2⟩ := toDigitsCore_decimal (n + 1) n [] (by omega)
  have : (fmt_u n).data = Nat.toDigits 10 n := rfl
  rw [this, Nat.toDigits, e1, List.append_nil, e2]

theorem fmt_u_digit (c : Nat) (h1 : 1 ≤ c) (h8 : c ≤ 8) :
    (fmt_u c).data = [Nat.digitChar c] := by
  interval_cases c <;> rfl

theorem cmin_line_inj (b1 b2 : u8) (i1 i2 : Nat)
    (hb1 : 1 ≤ b1.val ∧ b1.val ≤ 8) (hb2 : 1 ≤ b2.val ∧ b2.val ≤ 8)
    (heq : cmin_line b1 i1 = cmin_line b2 i2) : b1 = b2 ∧ i1 = i2 := by
  have hd : (cmin_line b1 i1).data = (cmin_line b2 i2).data := by rw [heq]
  simp only [cmin_line, String.data_append, fmt_u_digit _ hb1.1 hb1.2,
    fmt_u_digit _ hb2.1 hb2.2, List.singleton_append, List.cons_append, List.cons.injEq] at hd
  obtain ⟨hc, ht⟩ := hd
  constructor
  · apply Fin.ext
    have := congrArg digit_val hc
    rwa [digit_val_digitChar _ (by omega), digit_val_digitChar _ (by omega)] at this
  · simp only [List.nil_append] at ht
    have h2 := List.append_cancel_right ht
    have := congrArg decimal_val h2
    rwa [decimal_val_fmt_u, decimal_val_fmt_u] at this

set_option maxRecDepth 1000000 in
theorem human_class_range (v : u8) (hv : lookup count_class_human v ≠ 0) :
    1 ≤ (lookup count_class_human v).val ∧ (lookup count_class_human v).val ≤ 8 := by
  revert v
  decide

/-- C13: the corpus-minimization line, the decimal count immediately
followed by the decimal index (format `%u%u`), identifies its tuple on
classified maps: for counts in 1..8 and indices below `MAP_SIZE`, equal
lines have equal counts and equal indices; and 1..8 are the non-zero values
of `count_class_human`. -/
theorem cmin_line_unique (cfg : Config) (b1 b2 : u8) (i1 i2 : Nat)
    (hb1 : 1 ≤ b1.val ∧ b1.val ≤ 8) (hb2 : 1 ≤ b2.val ∧ b2.val ≤ 8)
    (_hi1 : i1 < cfg.MAP_SIZE) (_hi2 : i2 < cfg.MAP_SIZE)
    (heq : cmin_line b1 i1 = cmin_line b2 i2) :
    (b1 = b2 ∧ i1 = i2) ∧
    ∀ v : u8, lookup count_class_human v ≠ 0 →
      1 ≤ (lookup count_class_human v).val ∧ (lookup count_class_human v).val ≤ 8 :=
  ⟨cmin_line_inj b1 b2 i1 i2 hb1 hb2 heq, human_class_range⟩

theorem cmin_line_unique_witness :
    cmin_line 7 3 = "73\n" ∧ ((7 : u8) = 7 ∧ (3 : Nat) = 3) :=
  ⟨rfl, (cmin_line_unique cfg8 7 7 3 3 (by decide) (by decide) (by decide) (by decide) rfl).1⟩

end AflShowmap
